import Mathlib

/-!
Shallow embedding of `src/controller.js` (DasRed/js-backbone-controller).

The embedded core is `Controller.prototype.findActionMethodAndParameters`
(the resolver), `Controller.prototype.callActionMethod` and
`Controller.prototype.dispatch` (the dispatcher), and
`Controller.prototype.removeView` (view-lifecycle).

Modelling decisions, all driven by the source:
* JS values reaching the argument pipeline are modelled by `JSVal`:
  strings, (integer-valued) numbers, `null`, and an opaque plain object
  (whose `Number(...)` conversion is `NaN`).
* `Number(...)` applied to a string is modelled by `jsStringToNumber`,
  restricted to optional-sign decimal integer literals plus the
  empty/whitespace-only string (which JS converts to `0`); every other
  string is `none` (i.e. `NaN`).  No claim involves fractional or
  exotic numeric literals.
* A JS property key used in `this[actionMethod]` is modelled by `JSKey`:
  the source initialises `actionMethod = null` and may set it to
  `undefined`, and JS coerces those keys to the property names
  `"null"` / `"undefined"`.
* A controller is its configuration (`actionMethodSuffix`,
  `defaultAction`) plus the table of callable members (`methods`),
  covering every name `n` for which `this[n] instanceof Function` holds;
  each callable is modelled by the value it returns (`RetVal`).
* `console.debug` / `console.info` output does not influence control
  flow and is not returned by the source functions, so the
  `listOfTestedMethods` accumulator is threaded through the search loop
  exactly as in the source but only feeds the (unmodelled) info log.
* Thrown `Error`s are modelled as `Except.error` carrying the exact
  message string the source concatenates.
-/

/-- A JS value as it can appear among dispatch parameters:
a string, an (integer-valued) number, `null`, or an opaque plain object. -/
inductive JSVal where
  | str (s : String)
  | num (n : Int)
  | null
  | obj
deriving DecidableEq, Repr

/-- The JS value stored in the `defaultAction` property: a string, `null`, or
`undefined`. -/
inductive JSStr where
  | str (s : String)
  | null
  | undef
deriving DecidableEq, Repr

/-- JS string coercion of the `defaultAction` value, as performed by
`this.defaultAction + this.actionMethodSuffix` (string concatenation turns
`null` into `"null"` and `undefined` into `"undefined"`). -/
def jsToString : JSStr → String
  | JSStr.str s => s
  | JSStr.null => "null"
  | JSStr.undef => "undefined"

/-- The value of the `actionMethod` variable in the source: it starts as
`null`, may become `undefined`, and otherwise holds a string. -/
inductive JSKey where
  | strk (s : String)
  | nullk
  | undefk
deriving DecidableEq, Repr

/-- JS property-key coercion: `this[null]` reads property `"null"` and
`this[undefined]` reads property `"undefined"`; string concatenation into an
error message coerces the same way. -/
def keyToString : JSKey → String
  | JSKey.strk s => s
  | JSKey.nullk => "null"
  | JSKey.undefk => "undefined"

/-- The return value of an action method: `undefined`, `null`, a
`BackboneView` instance (identified by a `Nat` id), or any other value. -/
inductive RetVal where
  | undef
  | null
  | view (v : Nat)
  | other (x : JSVal)
deriving DecidableEq, Repr

/-- A route object as consumed by the source: only its `name` and `route`
(pattern) properties are read, and only for diagnostics and error text. -/
structure Route where
  name : String
  route : String
deriving DecidableEq, Repr

/-- A controller: its two configuration properties plus the table of callable
members.  `methods` lists every property name `n` for which
`this[n] instanceof Function` holds (own or inherited), each paired with the
return value it yields for a given argument list. -/
structure Controller where
  actionMethodSuffix : String
  defaultAction : JSStr
  methods : List (String × (List JSVal → RetVal))

/-- `this[k] instanceof Function` for a key `k`. -/
def isFn (c : Controller) (k : JSKey) : Bool :=
  (c.methods.lookup (keyToString k)).isSome

/-- `this[k].apply(this, ps)`: invoke the callable member named `k`.  The
source only invokes after `isFn` has succeeded; a missing member defaults to
`RetVal.undef` here. -/
def invoke (c : Controller) (k : JSKey) (ps : List JSVal) : RetVal :=
  match c.methods.lookup (keyToString k) with
  | some f => f ps
  | none => RetVal.undef

/-- Parse a list of characters as a decimal digit sequence. -/
def digitsToNat : List Char → Option Nat
  | [] => none
  | cs =>
    if cs.all Char.isDigit then
      some (cs.foldl (fun n ch => n * 10 + (ch.toNat - 48)) 0)
    else
      none

/-- ASCII whitespace, as trimmed by JS `Number(...)` string conversion. -/
def isWhitespaceChar (ch : Char) : Bool :=
  ch.toNat = 32 || ch.toNat = 9 || ch.toNat = 10 ||
    ch.toNat = 13 || ch.toNat = 11 || ch.toNat = 12

/-- Strip leading and trailing whitespace from a character list. -/
def trimChars (cs : List Char) : List Char :=
  ((cs.dropWhile isWhitespaceChar).reverse.dropWhile isWhitespaceChar).reverse

/-- Model of JS `Number(s)` for a string `s`, restricted to optional-sign
decimal integer literals.  JS trims whitespace first and converts the empty
(or whitespace-only) string to `0`; any non-literal string is `NaN`,
modelled as `none`. -/
def jsStringToNumber (s : String) : Option Int :=
  match trimChars s.data with
  | [] => some 0
  | ch :: rest =>
    if ch = '-' then (digitsToNat rest).map (fun n => -(n : Int))
    else if ch = '+' then (digitsToNat rest).map Int.ofNat
    else (digitsToNat (ch :: rest)).map Int.ofNat

/-- Model of JS `Number(v)` for the values of `JSVal`: `Number(null) = 0`,
`Number(number) = number`, `Number(plainObject) = NaN`. -/
def jsNumber : JSVal → Option Int
  | JSVal.str s => jsStringToNumber s
  | JSVal.num n => some n
  | JSVal.null => some 0
  | JSVal.obj => none

/-- One step of the parameter-coercion map at the top of
`findActionMethodAndParameters`:

    var asNumber = Number(parameter);
    if (parameter !== null && isNaN(asNumber) === false) return asNumber;
    return parameter;
-/
def coerceParameter (p : JSVal) : JSVal :=
  match jsNumber p with
  | some n => if p = JSVal.null then p else JSVal.num n
  | none => p

/-- Upper-case an ASCII letter (the model of `toUpperCase` for the ASCII
route parts this library is used with). -/
def charToUpper (ch : Char) : Char :=
  if 97 ≤ ch.toNat ∧ ch.toNat ≤ 122 then Char.ofNat (ch.toNat - 32) else ch

/-- Camel-casing of one route part, by index:

    if (index === 0) return routePart;
    return routePart.charAt(0).toUpperCase() + routePart.slice(1);

(`charAt(0)` of the empty string is `""`, so an empty part stays empty). -/
def camelCasePart (index : Nat) (routePart : String) : String :=
  if index = 0 then routePart
  else
    match routePart.data with
    | [] => routePart
    | ch :: rest => String.mk (charToUpper ch :: rest)

/-- The camel-cased `parts` array: `lodash.map(routeParts, ...)` with the
element index supplied to the callback. -/
def camelParts (routeParts : List String) : List String :=
  routeParts.enum.map (fun ip => camelCasePart ip.1 ip.2)

/-- The candidate action-method name for a prefix of length `j`:
`parts.slice(0, j).join('') + this.actionMethodSuffix`. -/
def candidateName (c : Controller) (parts : List String) (j : Nat) : String :=
  String.join (parts.take j) ++ c.actionMethodSuffix

/-- JS `Array.prototype.slice(i)` for a possibly negative start index. -/
def jsSlice {α : Type} (l : List α) (i : Int) : List α :=
  if i < 0 then l.drop (l.length - (-i).toNat) else l.drop i.toNat

/-- The search loop of `findActionMethodAndParameters`:

    while ((this[actionMethod] instanceof Function) === false && position > 0) {
        actionMethod = parts.slice(0, position).join('') + this.actionMethodSuffix;
        listOfTestedMethods.push(actionMethod);
        position--;
    }

modelled by recursion on `position`; the result is the final
`(actionMethod, position, listOfTestedMethods)` triple. -/
def searchLoop (c : Controller) (parts : List String) :
    Nat → JSKey → List String → JSKey × Nat × List String
  | 0, am, tested => (am, 0, tested)
  | p + 1, am, tested =>
    if isFn c am then (am, p + 1, tested)
    else
      let amNext := JSKey.strk (candidateName c parts (p + 1))
      searchLoop c parts p amNext (tested ++ [candidateName c parts (p + 1)])

/-- The resolver result `{ method: actionMethod, parameters: parameters }`. -/
structure ResolveResult where
  method : JSKey
  parameters : List JSVal
deriving DecidableEq, Repr

/-- The error message thrown when the final action method is not callable:

    'Action method "' + actionMethod + '" can not be called on controller
     for route "' + route.name + '" (url://' + route.route + ').'
-/
def noActionError (am : JSKey) (route : Route) : String :=
  "Action method \"" ++ keyToString am ++
    "\" can not be called on controller for route \"" ++ route.name ++
    "\" (url://" ++ route.route ++ ")."

/-- The tail of `findActionMethodAndParameters` after the search loop:
the "nothing found" adjustment, the promotion of unused route parts into
parameters, the default-action fallback, and the final callability check. -/
def resolveAfterSearch (c : Controller) (route : Route)
    (routeParts : List String) (params : List JSVal)
    (am0 : JSKey) (pos0 : Nat) : Except String ResolveResult :=
  -- if ((this[actionMethod] instanceof Function) === false && position == 0)
  --     { actionMethod = undefined; position = -1; }
  let notFound := (!(isFn c am0)) && (pos0 == 0)
  let am1 := if notFound then JSKey.undefk else am0
  let position : Int := if notFound then -1 else (pos0 : Int)
  -- parameters = routeParts.slice(position + 1).concat(parameters);
  let parameters := (jsSlice routeParts (position + 1)).map JSVal.str ++ params
  -- if ((this.defaultAction !== undefined || this.defaultAction !== null)
  --     && (actionMethod === undefined
  --         || (this[actionMethod] instanceof Function) === false))
  --     actionMethod = this.defaultAction + this.actionMethodSuffix;
  let useDefault :=
    (decide (c.defaultAction ≠ JSStr.undef) || decide (c.defaultAction ≠ JSStr.null))
      && (decide (am1 = JSKey.undefk) || !(isFn c am1))
  let am2 :=
    if useDefault then JSKey.strk (jsToString c.defaultAction ++ c.actionMethodSuffix)
    else am1
  -- if ((this[actionMethod] instanceof Function) === false) throw ...
  if isFn c am2 then Except.ok ⟨am2, parameters⟩
  else Except.error (noActionError am2 route)

/-- `Controller.prototype.findActionMethodAndParameters(route, routeParts,
parameters)`: coerce the extra parameters, camel-case the parts, run the
longest-to-shortest search loop, then finish with `resolveAfterSearch`. -/
def findActionMethodAndParameters (c : Controller) (route : Route)
    (routeParts : List String) (parameters : List JSVal) :
    Except String ResolveResult :=
  let params := parameters.map coerceParameter
  let parts := camelParts routeParts
  let r := searchLoop c parts parts.length JSKey.nullk []
  resolveAfterSearch c route routeParts params r.1 r.2.1

/-- The mutable state the dispatcher owns: the `view` property (the current
view, `none` when `null`) plus a log of the view ids on which `remove()` has
been called, used to express "the prior view was released". -/
structure CState where
  view : Option Nat
  removedViews : List Nat
deriving DecidableEq, Repr

/-- `Controller.prototype.removeView`:

    if (this.view instanceof BackboneView) { this.view.remove(); this.view = null; }
-/
def removeView (s : CState) : CState :=
  match s.view with
  | some v => { view := none, removedViews := s.removedViews ++ [v] }
  | none => s

/-- The error message thrown on an invalid action return value:

    'Action method "' + method + '" must return a instance of BackboneView!'
-/
def invalidResultError (m : JSKey) : String :=
  "Action method \"" ++ keyToString m ++ "\" must return a instance of BackboneView!"

/-- `Controller.prototype.callActionMethod`: remove the current view, invoke
the resolved action, then validate and store its return value. -/
def callActionMethod (c : Controller) (s : CState) (r : ResolveResult) :
    CState × Except String Unit :=
  let s1 := removeView s
  match invoke c r.method r.parameters with
  | RetVal.undef => (s1, Except.ok ())
  | RetVal.null => (s1, Except.ok ())
  | RetVal.view v => ({ s1 with view := some v }, Except.ok ())
  | RetVal.other _ => (s1, Except.error (invalidResultError r.method))

/-- `Controller.prototype.dispatch`: the resolver runs first (it is evaluated
as an argument of `callActionMethod`), so a resolver error propagates before
`callActionMethod` — and hence before `removeView` — runs at all. -/
def dispatch (c : Controller) (s : CState) (route : Route)
    (routeParts : List String) (args : List JSVal) :
    CState × Except String Unit :=
  match findActionMethodAndParameters c route routeParts args with
  | Except.error e => (s, Except.error e)
  | Except.ok r => callActionMethod c s r

/-- Decidable equality on `Except`, by cases on the two constructors. -/
def exceptDecEq {ε α : Type} [DecidableEq ε] [DecidableEq α] :
    (a b : Except ε α) → Decidable (a = b)
  | Except.error e, Except.error f =>
    if h : e = f then Decidable.isTrue (by rw [h])
    else Decidable.isFalse (fun hh => h (Except.error.injEq .. ▸ hh))
  | Except.error _, Except.ok _ => Decidable.isFalse (fun hh => Except.noConfusion hh)
  | Except.ok _, Except.error _ => Decidable.isFalse (fun hh => Except.noConfusion hh)
  | Except.ok a, Except.ok b =>
    if h : a = b then Decidable.isTrue (by rw [h])
    else Decidable.isFalse (fun hh => h (Except.ok.injEq .. ▸ hh))

instance {ε α : Type} [DecidableEq ε] [DecidableEq α] : DecidableEq (Except ε α) :=
  exceptDecEq

example :
    findActionMethodAndParameters
      ⟨"Action", JSStr.str "index", [("bundleEditAction", fun _ => RetVal.undef)]⟩
      ⟨"r", "bundle/edit/nuff/:id"⟩ ["bundle", "edit", "nuff"] [JSVal.str "10"] =
    Except.ok ⟨JSKey.strk "bundleEditAction", [JSVal.str "nuff", JSVal.num 10]⟩ := by
  decide

lemma camelParts_length (routeParts : List String) :
    (camelParts routeParts).length = routeParts.length := by
  simp [camelParts]

lemma removeView_view (s : CState) : (removeView s).view = none := by
  cases h : s.view <;> simp [removeView, h]

/-- The left conjunct of the default-action guard in the source,
`this.defaultAction !== undefined || this.defaultAction !== null`, is true
for every possible value of `defaultAction`. -/
lemma defaultGuard_true (d : JSStr) :
    (decide (d ≠ JSStr.undef) || decide (d ≠ JSStr.null)) = true := by
  cases d <;> simp

/-- If the candidate for aim length `k` is callable, no longer candidate up
to `p` is, and the incoming `actionMethod` is not callable, the search loop
started at `position = p ≥ k` stops with the length-`k` candidate and
`position = k - 1`. -/
lemma searchLoop_stops (c : Controller) (parts : List String) (k : Nat)
    (hk : 1 ≤ k)
    (hfk : isFn c (JSKey.strk (candidateName c parts k)) = true) :
    ∀ p, k ≤ p → ∀ am tested, isFn c am = false →
      (∀ j, k < j → j ≤ p → isFn c (JSKey.strk (candidateName c parts j)) = false) →
      ∃ t, searchLoop c parts p am tested =
        (JSKey.strk (candidateName c parts k), k - 1, t) := by
  intro p hp
  induction p, hp using Nat.le_induction with
  | base =>
    intro am tested ham habove
    obtain ⟨k1, rfl⟩ : ∃ k1, k = k1 + 1 := ⟨k - 1, by omega⟩
    rw [searchLoop]
    simp only [ham, Bool.false_eq_true, if_false]
    cases k1 with
    | zero => exact ⟨tested ++ [candidateName c parts 1], by rw [searchLoop]⟩
    | succ k2 =>
      refine ⟨tested ++ [candidateName c parts (k2 + 1 + 1)], ?_⟩
      rw [searchLoop]
      simp [hfk]
  | succ p hp ih =>
    intro am tested ham habove
    rw [searchLoop]
    simp only [ham, Bool.false_eq_true, if_false]
    exact ih _ _ (habove (p + 1) (by omega) (by omega))
      (fun j h1 h2 => habove j h1 (by omega))

/-- If no candidate of any length `1 ≤ j ≤ p` is callable and the incoming
`actionMethod` is not callable, the search loop exhausts all positions:
it ends at `position = 0` with a non-callable `actionMethod`. -/
lemma searchLoop_exhausts (c : Controller) (parts : List String) :
    ∀ p am tested, isFn c am = false →
      (∀ j, 1 ≤ j → j ≤ p → isFn c (JSKey.strk (candidateName c parts j)) = false) →
      isFn c (searchLoop c parts p am tested).1 = false ∧
        (searchLoop c parts p am tested).2.1 = 0 := by
  intro p
  induction p with
  | zero => intro am tested ham _; rw [searchLoop]; exact ⟨ham, rfl⟩
  | succ p ih =>
    intro am tested ham hall
    rw [searchLoop]
    simp only [ham, Bool.false_eq_true, if_false]
    exact ih _ _ (hall (p + 1) (by omega) (by omega))
      (fun j h1 h2 => hall j h1 (by omega))

/-- `resolveAfterSearch` after a successful search: a callable, non-undefined
`actionMethod` at `position = k - 1` (with `k ≥ 1`) is returned unchanged,
with `routeParts.slice(k)` prepended to the parameters. -/
lemma resolveAfterSearch_found (c : Controller) (route : Route)
    (routeParts : List String) (params : List JSVal) (am : JSKey) (k : Nat)
    (hk : 1 ≤ k) (hfn : isFn c am = true) (hne : am ≠ JSKey.undefk) :
    resolveAfterSearch c route routeParts params am (k - 1) =
      Except.ok ⟨am, (routeParts.drop k).map JSVal.str ++ params⟩ := by
  unfold resolveAfterSearch
  have h1 : (((k - 1 : Nat) : Int) + 1) = ((k : Nat) : Int) := by omega
  have h2 : jsSlice routeParts ((k : Nat) : Int) = routeParts.drop k := by
    simp [jsSlice]
  simp [hfn, hne, h1, h2, List.map_drop]

/-- `resolveAfterSearch` after an exhausted search (`position = 0`,
non-callable `actionMethod`): the whole `routeParts` array is prepended to
the parameters and the default action name is used; the result depends only
on whether the default name is callable. -/
lemma resolveAfterSearch_exhausted (c : Controller) (route : Route)
    (routeParts : List String) (params : List JSVal) (am : JSKey)
    (hfn : isFn c am = false) :
    resolveAfterSearch c route routeParts params am 0 =
      (if isFn c (JSKey.strk (jsToString c.defaultAction ++ c.actionMethodSuffix)) then
        Except.ok ⟨JSKey.strk (jsToString c.defaultAction ++ c.actionMethodSuffix),
          routeParts.map JSVal.str ++ params⟩
      else
        Except.error (noActionError
          (JSKey.strk (jsToString c.defaultAction ++ c.actionMethodSuffix)) route)) := by
  unfold resolveAfterSearch
  rw [defaultGuard_true]
  have h2 : jsSlice routeParts (0 : Int) = routeParts := by
    simp [jsSlice]
  simp [hfn, h2]

/-- Every error produced by `resolveAfterSearch` is `noActionError` for the
default-derived action name: the always-true left conjunct of the guard means
the final `actionMethod` at the throw site is always
`String(defaultAction) + actionMethodSuffix`. -/
lemma resolveAfterSearch_error_shape (c : Controller) (route : Route)
    (routeParts : List String) (params : List JSVal) (am0 : JSKey) (pos0 : Nat)
    (msg : String)
    (h : resolveAfterSearch c route routeParts params am0 pos0 = Except.error msg) :
    msg = noActionError
      (JSKey.strk (jsToString c.defaultAction ++ c.actionMethodSuffix)) route := by
  unfold resolveAfterSearch at h
  rw [defaultGuard_true] at h
  simp only [Bool.true_and] at h
  cases hnf : ((!(isFn c am0)) && (pos0 == 0)) with
  | true =>
    rw [hnf] at h
    simp at h
    split at h
    · exact Except.noConfusion h
    · injection h with h1
      exact h1.symm
  | false =>
    rw [hnf] at h
    simp at h
    by_cases hud : (am0 = JSKey.undefk ∨ isFn c am0 = false)
    · rw [if_pos hud] at h
      split at h
      · exact Except.noConfusion h
      · injection h with h1
        exact h1.symm
    · rw [if_neg hud] at h
      push_neg at hud
      have hfn : isFn c am0 = true := by
        cases hh : isFn c am0
        · exact absurd hh hud.2
        · rfl
      rw [hfn] at h
      simp at h

/-- Resolver characterization, match case: if the controller has no callable
member named `"null"`, the length-`k` camel-joined candidate (`1 ≤ k ≤ N`) is
callable, and no longer candidate is, then resolution succeeds with that
candidate and with arguments `segments[k:]` followed by the coerced extras. -/
lemma resolver_found (c : Controller) (route : Route)
    (routeParts : List String) (args : List JSVal) (k : Nat)
    (hnull : isFn c JSKey.nullk = false)
    (hk : 1 ≤ k) (hkN : k ≤ routeParts.length)
    (habove : ∀ j, k < j → j ≤ routeParts.length →
        isFn c (JSKey.strk (candidateName c (camelParts routeParts) j)) = false)
    (hhit : isFn c (JSKey.strk (candidateName c (camelParts routeParts) k)) = true) :
    findActionMethodAndParameters c route routeParts args =
      Except.ok ⟨JSKey.strk (candidateName c (camelParts routeParts) k),
        (routeParts.drop k).map JSVal.str ++ args.map coerceParameter⟩ := by
  unfold findActionMethodAndParameters
  obtain ⟨t, ht⟩ := searchLoop_stops c (camelParts routeParts) k hk hhit
    (camelParts routeParts).length (by rw [camelParts_length]; exact hkN)
    JSKey.nullk [] hnull
    (fun j h1 h2 => habove j h1 (by rwa [camelParts_length] at h2))
  simp only [ht]
  exact resolveAfterSearch_found c route routeParts (args.map coerceParameter)
    (JSKey.strk (candidateName c (camelParts routeParts) k)) k hk hhit (by simp)

/-- Resolver characterization, exhausted case: if the controller has no
callable member named `"null"` and no camel-joined candidate of any length is
callable, resolution falls back to the default-derived name
`String(defaultAction) + actionMethodSuffix`, with the whole segment list
prepended to the coerced extras; it succeeds if that name is callable and
fails with `noActionError` otherwise. -/
lemma resolver_exhausted (c : Controller) (route : Route)
    (routeParts : List String) (args : List JSVal)
    (hnull : isFn c JSKey.nullk = false)
    (hmiss : ∀ j, 1 ≤ j → j ≤ routeParts.length →
        isFn c (JSKey.strk (candidateName c (camelParts routeParts) j)) = false) :
    findActionMethodAndParameters c route routeParts args =
      (if isFn c (JSKey.strk (jsToString c.defaultAction ++ c.actionMethodSuffix)) then
        Except.ok ⟨JSKey.strk (jsToString c.defaultAction ++ c.actionMethodSuffix),
          routeParts.map JSVal.str ++ args.map coerceParameter⟩
      else
        Except.error (noActionError
          (JSKey.strk (jsToString c.defaultAction ++ c.actionMethodSuffix)) route)) := by
  unfold findActionMethodAndParameters
  obtain ⟨h1, h2⟩ := searchLoop_exhausts c (camelParts routeParts)
    (camelParts routeParts).length JSKey.nullk [] hnull
    (fun j hj1 hj2 => hmiss j hj1 (by rwa [camelParts_length] at hj2))
  simp only [h2]
  exact resolveAfterSearch_exhausted c route routeParts (args.map coerceParameter) _ h1

/-- Lift of `resolveAfterSearch_error_shape` to the full resolver: every
resolution error message is `noActionError` for the default-derived name. -/
lemma resolver_error_shape (c : Controller) (route : Route)
    (routeParts : List String) (args : List JSVal) (msg : String)
    (h : findActionMethodAndParameters c route routeParts args = Except.error msg) :
    msg = noActionError
      (JSKey.strk (jsToString c.defaultAction ++ c.actionMethodSuffix)) route :=
  resolveAfterSearch_error_shape c route routeParts (args.map coerceParameter)
    (searchLoop c (camelParts routeParts)
      (camelParts routeParts).length JSKey.nullk []).1
    (searchLoop c (camelParts routeParts)
      (camelParts routeParts).length JSKey.nullk []).2.1
    msg h

lemma strData_append (a b : String) : (a ++ b).data = a.data ++ b.data := rfl

/-- A dispatch whose resolution fails propagates the error with the
controller state untouched: `callActionMethod` (and hence `removeView`)
never runs, because the resolver is evaluated as its argument. -/
lemma dispatch_resolver_error (c : Controller) (s : CState) (route : Route)
    (routeParts : List String) (args : List JSVal) (e : String)
    (h : findActionMethodAndParameters c route routeParts args = Except.error e) :
    dispatch c s route routeParts args = (s, Except.error e) := by
  simp [dispatch, h]

/-- A dispatch whose resolution succeeds runs `callActionMethod` on the
resolver result. -/
lemma dispatch_resolver_ok (c : Controller) (s : CState) (route : Route)
    (routeParts : List String) (args : List JSVal) (r : ResolveResult)
    (h : findActionMethodAndParameters c route routeParts args = Except.ok r) :
    dispatch c s route routeParts args = callActionMethod c s r := by
  simp [dispatch, h]

/-! Concrete fixtures used by counterexamples and witnesses. -/

/-- A route with name `"r"` and pattern `"p"`. -/
def demoRoute : Route := ⟨"r", "p"⟩

/-- A controller with the default configuration and no callable member at
all: every resolution on it fails. -/
def noMethodsC : Controller := ⟨"Action", JSStr.str "index", []⟩

/-- A controller whose only action is `aAction`, which returns nothing. -/
def aC : Controller :=
  ⟨"Action", JSStr.str "index", [("aAction", fun _ => RetVal.undef)]⟩

/-- The worked-scenario controller: exposes exactly `bundleEditAction`. -/
def bundleC : Controller :=
  ⟨"Action", JSStr.str "index", [("bundleEditAction", fun _ => RetVal.undef)]⟩

/-- A controller exposing callables for both prefix lengths 2 and 1
(`bundleEditAction` and `bundleAction`). -/
def bothC : Controller :=
  ⟨"Action", JSStr.str "index",
    [("bundleEditAction", fun _ => RetVal.undef),
     ("bundleAction", fun _ => RetVal.undef)]⟩

/-- A controller with `defaultAction = null` (the spec's "disabled" value)
that happens to expose a callable named `nullAction`. -/
def nullDefC : Controller :=
  ⟨"Action", JSStr.null, [("nullAction", fun _ => RetVal.undef)]⟩

/-- A controller with only the default action `indexAction` callable. -/
def idxC : Controller :=
  ⟨"Action", JSStr.str "index", [("indexAction", fun _ => RetVal.undef)]⟩

/-- A controller whose only action `fooAction` violates the return contract
by returning a plain object. -/
def badC : Controller :=
  ⟨"Action", JSStr.str "index", [("fooAction", fun _ => RetVal.other JSVal.obj)]⟩

/-- A controller with one action per return-value kind: `u` returns
`undefined`, `w` returns a view, `o` returns a plain object. -/
def retC : Controller :=
  ⟨"", JSStr.str "index",
    [("u", fun _ => RetVal.undef),
     ("w", fun _ => RetVal.view 7),
     ("o", fun _ => RetVal.other JSVal.obj)]⟩

/-- A controller for the two-dispatch view-lifecycle scenario: action `a1`
returns view 7, action `a2` returns nothing. -/
def vlC : Controller :=
  ⟨"", JSStr.str "index",
    [("a1", fun _ => RetVal.view 7),
     ("a2", fun _ => RetVal.undef)]⟩

/-- A dispatcher state currently holding view 5, nothing removed yet. -/
def s5 : CState := ⟨some 5, []⟩

/-- The empty dispatcher state: no view, nothing removed. -/
def s0 : CState := ⟨none, []⟩

/-! Claim theorems. -/

/-- C2: whenever the resolver finds its first callable match at prefix
length `k` (`1 ≤ k ≤ N`, no longer candidate callable, no callable member
named `"null"` to satisfy the loop entry check early), the produced argument
list is exactly `segments[k:]` in original order followed by the coerced
extra arguments; in particular a match at the full length `N` yields exactly
the coerced extra arguments. -/
theorem resolver_leftover_segments (c : Controller) (route : Route)
    (routeParts : List String) (args : List JSVal) (k : Nat)
    (hnull : isFn c JSKey.nullk = false)
    (hk : 1 ≤ k) (hkN : k ≤ routeParts.length)
    (habove : ∀ j < routeParts.length + 1, k < j →
        isFn c (JSKey.strk (candidateName c (camelParts routeParts) j)) = false)
    (hhit : isFn c (JSKey.strk (candidateName c (camelParts routeParts) k)) = true) :
    findActionMethodAndParameters c route routeParts args =
      Except.ok ⟨JSKey.strk (candidateName c (camelParts routeParts) k),
        (routeParts.drop k).map JSVal.str ++ args.map coerceParameter⟩ ∧
    (k = routeParts.length →
      findActionMethodAndParameters c route routeParts args =
        Except.ok ⟨JSKey.strk (candidateName c (camelParts routeParts) k),
          args.map coerceParameter⟩) := by
  have h := resolver_found c route routeParts args k hnull hk hkN
    (fun j h1 h2 => habove j (by omega) h1) hhit
  refine ⟨h, fun hEq => ?_⟩
  rw [h]
  subst hEq
  simp

/-- C2 witness: the worked scenario — `bundleEditAction`, segments
`["bundle", "edit", "nuff"]`, extras `["10"]` — matches at `k = 2` and the
argument list is `["nuff", 10]`. -/
theorem resolver_leftover_segments_witness :
    isFn bundleC (JSKey.strk (candidateName bundleC
      (camelParts ["bundle", "edit", "nuff"]) 2)) = true ∧
    findActionMethodAndParameters bundleC demoRoute
      ["bundle", "edit", "nuff"] [JSVal.str "10"] =
      Except.ok ⟨JSKey.strk "bundleEditAction", [JSVal.str "nuff", JSVal.num 10]⟩ := by
  constructor
  · decide
  · have h := (resolver_leftover_segments bundleC demoRoute
      ["bundle", "edit", "nuff"] [JSVal.str "10"] 2
      (by decide) (by decide) (by decide) (by decide) (by decide)).1
    rw [h]
    decide

/-- C3: the search goes from the longest camel-joined prefix candidate to the
shortest and stops at the first callable one, so with callables at both
prefix lengths `k` and `k - 1` (and none longer) the resolver selects `k`. -/
theorem resolver_longest_wins (c : Controller) (route : Route)
    (routeParts : List String) (args : List JSVal) (k : Nat)
    (hnull : isFn c JSKey.nullk = false)
    (hk : 2 ≤ k) (hkN : k ≤ routeParts.length)
    (habove : ∀ j < routeParts.length + 1, k < j →
        isFn c (JSKey.strk (candidateName c (camelParts routeParts) j)) = false)
    (hhitk : isFn c (JSKey.strk (candidateName c (camelParts routeParts) k)) = true)
    (_hhitk1 : isFn c (JSKey.strk (candidateName c (camelParts routeParts) (k - 1))) = true) :
    ∃ ps, findActionMethodAndParameters c route routeParts args =
      Except.ok ⟨JSKey.strk (candidateName c (camelParts routeParts) k), ps⟩ :=
  ⟨(routeParts.drop k).map JSVal.str ++ args.map coerceParameter,
    resolver_found c route routeParts args k hnull (by omega) hkN
      (fun j h1 h2 => habove j (by omega) h1) hhitk⟩

/-- C3 witness: `bothC` exposes `bundleEditAction` (length 2) and
`bundleAction` (length 1); on `["bundle", "edit"]` the resolver selects the
length-2 candidate. -/
theorem resolver_longest_wins_witness :
    isFn bothC (JSKey.strk "bundleEditAction") = true ∧
    isFn bothC (JSKey.strk "bundleAction") = true ∧
    (∃ ps, findActionMethodAndParameters bothC demoRoute ["bundle", "edit"] [] =
      Except.ok ⟨JSKey.strk (candidateName bothC (camelParts ["bundle", "edit"]) 2), ps⟩) :=
  ⟨by decide, by decide,
    resolver_longest_wins bothC demoRoute ["bundle", "edit"] [] 2
      (by decide) (by decide) (by decide) (by decide) (by decide) (by decide)⟩

/-- C10: when the search exhausts every prefix length without a callable and
the default action is callable, the default action's argument list is the
entire original segment list, in order, followed by the coerced extras (the
default behaves as a match at prefix length 0). -/
theorem resolver_default_all_segments (c : Controller) (route : Route)
    (routeParts : List String) (args : List JSVal)
    (hnull : isFn c JSKey.nullk = false)
    (hmiss : ∀ j < routeParts.length + 1, 1 ≤ j →
        isFn c (JSKey.strk (candidateName c (camelParts routeParts) j)) = false)
    (hdef : isFn c (JSKey.strk (jsToString c.defaultAction ++ c.actionMethodSuffix)) = true) :
    findActionMethodAndParameters c route routeParts args =
      Except.ok ⟨JSKey.strk (jsToString c.defaultAction ++ c.actionMethodSuffix),
        routeParts.map JSVal.str ++ args.map coerceParameter⟩ := by
  rw [resolver_exhausted c route routeParts args hnull
    (fun j h1 h2 => hmiss j (by omega) h1)]
  simp [hdef]

/-- C10 witness: `idxC` has only `indexAction`; segments
`["unknown", "path"]` with extra `"7"` give the default action all segments
plus the coerced extra. -/
theorem resolver_default_all_segments_witness :
    isFn idxC (JSKey.strk (jsToString idxC.defaultAction ++ idxC.actionMethodSuffix)) = true ∧
    findActionMethodAndParameters idxC demoRoute ["unknown", "path"] [JSVal.str "7"] =
      Except.ok ⟨JSKey.strk "indexAction",
        [JSVal.str "unknown", JSVal.str "path", JSVal.num 7]⟩ := by
  constructor
  · decide
  · have h := resolver_default_all_segments idxC demoRoute ["unknown", "path"]
      [JSVal.str "7"] (by decide) (by decide) (by decide)
    rw [h]
    decide

set_option maxRecDepth 4096 in
/-- C4 counterexample: with no callable at all, segments `["foo"]` and
default `"index"`, resolution fails — but the error does NOT carry the
previously tested candidate name `"fooAction"`, contradicting the claim that
the error carries all tested candidate names. -/
theorem resolver_error_candidates_cex :
    findActionMethodAndParameters noMethodsC demoRoute ["foo"] [] =
      Except.error (noActionError (JSKey.strk "indexAction") demoRoute) ∧
    ¬ ("fooAction".data <:+:
        (noActionError (JSKey.strk "indexAction") demoRoute).data) := by
  constructor
  · decide
  · decide

/-- C4 (amended): when resolution fails, the error carries the
default-derived action name together with the route's name and pattern —
the tested candidate names are only emitted to the info log, not carried by
the error. -/
theorem resolver_error_carries (c : Controller) (route : Route)
    (routeParts : List String) (args : List JSVal) (msg : String)
    (h : findActionMethodAndParameters c route routeParts args = Except.error msg) :
    (jsToString c.defaultAction ++ c.actionMethodSuffix).data <:+: msg.data ∧
    route.name.data <:+: msg.data ∧
    route.route.data <:+: msg.data := by
  rw [resolver_error_shape c route routeParts args msg h]
  unfold noActionError keyToString
  refine ⟨⟨"Action method \"".data,
      ("\" can not be called on controller for route \"" ++ route.name ++
        "\" (url://" ++ route.route ++ ").").data, ?_⟩,
    ⟨("Action method \"" ++ (jsToString c.defaultAction ++ c.actionMethodSuffix) ++
        "\" can not be called on controller for route \"").data,
      ("\" (url://" ++ route.route ++ ").").data, ?_⟩,
    ⟨("Action method \"" ++ (jsToString c.defaultAction ++ c.actionMethodSuffix) ++
        "\" can not be called on controller for route \"" ++ route.name ++
        "\" (url://").data, ").".data, ?_⟩⟩ <;>
    simp [strData_append, List.append_assoc]

/-- C4 (amended) witness: the failing resolution of `["foo"]` on `noMethodsC`
produces an error whose text contains `"indexAction"`, the route name and
the route pattern. -/
theorem resolver_error_carries_witness :
    (jsToString noMethodsC.defaultAction ++ noMethodsC.actionMethodSuffix).data <:+:
      (noActionError (JSKey.strk "indexAction") demoRoute).data ∧
    demoRoute.name.data <:+: (noActionError (JSKey.strk "indexAction") demoRoute).data ∧
    demoRoute.route.data <:+: (noActionError (JSKey.strk "indexAction") demoRoute).data :=
  resolver_error_carries noMethodsC demoRoute ["foo"] []
    (noActionError (JSKey.strk "indexAction") demoRoute) (by decide)

/-- C5: the guard `defaultAction !== undefined || defaultAction !== null` is
true for every value, so a `null` default does NOT disable the fallback: the
code still builds `"null" + suffix` and here successfully resolves (and
would invoke) `nullAction`, instead of failing fatally as the claim states. -/
theorem null_default_still_falls_back :
    findActionMethodAndParameters nullDefC demoRoute ["foo"] [] =
      Except.ok ⟨JSKey.strk "nullAction", [JSVal.str "foo"]⟩ := by
  decide

set_option maxRecDepth 4096 in
/-- C1 counterexample: a dispatch that fails during resolution leaves the
prior `CurrentView` fully in place — the view's `remove` is never called and
the reference is not cleared — contradicting the claim that after any failed
dispatch the controller holds no active view. -/
theorem dispatch_resolution_failure_keeps_view_cex :
    (dispatch noMethodsC s5 demoRoute ["foo"] []).2 =
      Except.error (noActionError (JSKey.strk "indexAction") demoRoute) ∧
    (dispatch noMethodsC s5 demoRoute ["foo"] []).1.view = some 5 ∧
    (dispatch noMethodsC s5 demoRoute ["foo"] []).1.removedViews = [] := by
  refine ⟨?_, ?_, ?_⟩ <;> decide

/-- C1 (amended): an invocation failure (invalid action result) is raised
only after the prior view's `remove` was called and the reference cleared,
but a resolution failure is raised before the view release runs, so such a
failed dispatch leaves the prior `CurrentView` untouched. -/
theorem dispatch_failure_view_lifecycle (c : Controller) (s : CState)
    (route : Route) (routeParts : List String) (args : List JSVal) :
    (∀ e, findActionMethodAndParameters c route routeParts args = Except.error e →
        dispatch c s route routeParts args = (s, Except.error e)) ∧
    (∀ r x, findActionMethodAndParameters c route routeParts args = Except.ok r →
        invoke c r.method r.parameters = RetVal.other x →
        dispatch c s route routeParts args =
          (removeView s, Except.error (invalidResultError r.method)) ∧
        (dispatch c s route routeParts args).1.view = none) := by
  constructor
  · intro e h
    exact dispatch_resolver_error c s route routeParts args e h
  · intro r x h hi
    have hd : dispatch c s route routeParts args =
        (removeView s, Except.error (invalidResultError r.method)) := by
      rw [dispatch_resolver_ok c s route routeParts args r h]
      simp [callActionMethod, hi]
    exact ⟨hd, by rw [hd]; exact removeView_view s⟩

/-- C1 (amended) witness: a resolution failure keeps state `s5` unchanged;
an invalid-return failure on `badC` clears the view first. -/
theorem dispatch_failure_view_lifecycle_witness :
    dispatch noMethodsC s5 demoRoute ["foo"] [] =
      (s5, Except.error (noActionError (JSKey.strk "indexAction") demoRoute)) ∧
    dispatch badC s5 demoRoute ["foo"] [] =
      (removeView s5, Except.error (invalidResultError (JSKey.strk "fooAction"))) :=
  ⟨(dispatch_failure_view_lifecycle noMethodsC s5 demoRoute ["foo"] []).1
      (noActionError (JSKey.strk "indexAction") demoRoute) (by decide),
   ((dispatch_failure_view_lifecycle badC s5 demoRoute ["foo"] []).2
      ⟨JSKey.strk "fooAction", []⟩ JSVal.obj (by decide) (by decide)).1⟩

/-- C6: extra-argument coercion is applied per value: a string parsing as a
numeric literal becomes that number, a non-parsing string is kept, `null`
and plain objects pass through; and the resolver applies exactly
`coerceParameter` to each extra argument independently (shown on a
full-length match, where the argument list is the coerced extras). -/
theorem coercion_per_argument (s' : String) (n : Int) :
    (jsStringToNumber s' = some n → coerceParameter (JSVal.str s') = JSVal.num n) ∧
    (jsStringToNumber s' = none → coerceParameter (JSVal.str s') = JSVal.str s') ∧
    coerceParameter JSVal.null = JSVal.null ∧
    coerceParameter JSVal.obj = JSVal.obj ∧
    coerceParameter (JSVal.str "42") = JSVal.num 42 ∧
    coerceParameter (JSVal.str "abc") = JSVal.str "abc" ∧
    (∀ args : List JSVal, findActionMethodAndParameters aC demoRoute ["a"] args =
      Except.ok ⟨JSKey.strk "aAction", args.map coerceParameter⟩) := by
  refine ⟨?_, ?_, by decide, by decide, by decide, by decide, fun args => rfl⟩
  · intro h
    simp [coerceParameter, jsNumber, h]
  · intro h
    simp [coerceParameter, jsNumber, h]

/-- C6 witness: `"42"` parses and is coerced to the number 42. -/
theorem coercion_per_argument_witness :
    jsStringToNumber "42" = some 42 ∧
    coerceParameter (JSVal.str "42") = JSVal.num 42 :=
  ⟨by decide, (coercion_per_argument "42" 42).1 (by decide)⟩

/-- C7 counterexample: an empty string occurring as a leftover route segment
is NOT coerced: on `["a", "b", ""]` with `aAction` matching at length 1, the
argument list is `["b", ""]` — the empty segment stays the empty string, not
the number 0, contradicting the claim for segments. -/
theorem empty_segment_not_coerced_cex :
    findActionMethodAndParameters aC demoRoute ["a", "b", ""] [] =
      Except.ok ⟨JSKey.strk "aAction", [JSVal.str "b", JSVal.str ""]⟩ ∧
    JSVal.str "" ≠ JSVal.num 0 := by
  refine ⟨?_, ?_⟩ <;> decide

/-- C7 (amended): an empty string as an EXTRA argument is coerced to the
number 0 (`Number('') === 0`), but an empty string as a route segment is not
coerced at all and remains the empty string in the argument list. -/
theorem empty_string_coercion_amended :
    coerceParameter (JSVal.str "") = JSVal.num 0 ∧
    findActionMethodAndParameters aC demoRoute ["a"] [JSVal.str ""] =
      Except.ok ⟨JSKey.strk "aAction", [JSVal.num 0]⟩ ∧
    findActionMethodAndParameters aC demoRoute ["a", "b", ""] [] =
      Except.ok ⟨JSKey.strk "aAction", [JSVal.str "b", JSVal.str ""]⟩ := by
  refine ⟨?_, ?_, ?_⟩ <;> decide

/-- C8: the dispatcher's handling of the action's return value — `undefined`
or `null` store no view and complete successfully, a view becomes the new
`CurrentView`, and any other value raises the invalid-result error with no
view stored. -/
theorem callActionMethod_return_contract (c : Controller) (s : CState)
    (r : ResolveResult) :
    ((invoke c r.method r.parameters = RetVal.undef ∨
        invoke c r.method r.parameters = RetVal.null) →
      callActionMethod c s r = (removeView s, Except.ok ()) ∧
        (callActionMethod c s r).1.view = none) ∧
    (∀ v, invoke c r.method r.parameters = RetVal.view v →
      callActionMethod c s r = ({ removeView s with view := some v }, Except.ok ())) ∧
    (∀ x, invoke c r.method r.parameters = RetVal.other x →
      callActionMethod c s r =
        (removeView s, Except.error (invalidResultError r.method)) ∧
        (callActionMethod c s r).1.view = none) := by
  refine ⟨?_, ?_, ?_⟩
  · rintro (h | h) <;>
      exact ⟨by simp [callActionMethod, h], by simp [callActionMethod, h, removeView_view]⟩
  · intro v h
    simp [callActionMethod, h]
  · intro x h
    exact ⟨by simp [callActionMethod, h], by simp [callActionMethod, h, removeView_view]⟩

/-- C8 witness: on `retC`, action `u` (returns `undefined`) completes with no
view, `w` stores view 7, and `o` (returns a plain object) errors. -/
theorem callActionMethod_return_contract_witness :
    callActionMethod retC s0 ⟨JSKey.strk "u", []⟩ = (removeView s0, Except.ok ()) ∧
    callActionMethod retC s0 ⟨JSKey.strk "w", []⟩ =
      ({ removeView s0 with view := some 7 }, Except.ok ()) ∧
    callActionMethod retC s0 ⟨JSKey.strk "o", []⟩ =
      (removeView s0, Except.error (invalidResultError (JSKey.strk "o"))) :=
  ⟨((callActionMethod_return_contract retC s0 ⟨JSKey.strk "u", []⟩).1
      (Or.inl (by decide))).1,
   (callActionMethod_return_contract retC s0 ⟨JSKey.strk "w", []⟩).2.1 7 (by decide),
   ((callActionMethod_return_contract retC s0 ⟨JSKey.strk "o", []⟩).2.2
      JSVal.obj (by decide)).1⟩

/-- C9: every dispatch that resolves releases and clears the prior
`CurrentView` before the action runs; in the two-dispatch scenario where the
first action returns view `v1` and the second returns nothing, the second
dispatch leaves the `CurrentView` cleared (not `v1`) and `v1` removed. -/
theorem dispatch_view_lifecycle (c : Controller) (s : CState)
    (route1 route2 : Route) (rp1 rp2 : List String)
    (args1 args2 : List JSVal) (r1 r2 : ResolveResult) (v1 : Nat)
    (h1 : findActionMethodAndParameters c route1 rp1 args1 = Except.ok r1)
    (hv1 : invoke c r1.method r1.parameters = RetVal.view v1)
    (h2 : findActionMethodAndParameters c route2 rp2 args2 = Except.ok r2)
    (hv2 : invoke c r2.method r2.parameters = RetVal.undef) :
    (∀ w, s.view = some w → w ∈ (dispatch c s route1 rp1 args1).1.removedViews) ∧
    (dispatch c s route1 rp1 args1).1.view = some v1 ∧
    (dispatch c (dispatch c s route1 rp1 args1).1 route2 rp2 args2).1.view = none ∧
    v1 ∈ (dispatch c (dispatch c s route1 rp1 args1).1 route2 rp2 args2).1.removedViews := by
  have d1 : dispatch c s route1 rp1 args1 =
      ({ removeView s with view := some v1 }, Except.ok ()) := by
    rw [dispatch_resolver_ok c s route1 rp1 args1 r1 h1]
    simp [callActionMethod, hv1]
  have d2 : dispatch c { removeView s with view := some v1 } route2 rp2 args2 =
      (⟨none, (removeView s).removedViews ++ [v1]⟩, Except.ok ()) := by
    rw [dispatch_resolver_ok c _ route2 rp2 args2 r2 h2]
    simp [callActionMethod, hv2, removeView]
  refine ⟨?_, ?_, ?_, ?_⟩
  · intro w hw
    rw [d1]
    simp [removeView, hw]
  · rw [d1]
  · rw [d1, d2]
  · rw [d1, d2]
    simp

/-- C9 witness: on `vlC`, dispatching `["a1"]` (returns view 7) and then
`["a2"]` (returns nothing) leaves no current view, with view 7 removed. -/
theorem dispatch_view_lifecycle_witness :
    (dispatch vlC s0 demoRoute ["a1"] []).1.view = some 7 ∧
    (dispatch vlC (dispatch vlC s0 demoRoute ["a1"] []).1 demoRoute ["a2"] []).1.view = none ∧
    7 ∈ (dispatch vlC (dispatch vlC s0 demoRoute ["a1"] []).1 demoRoute ["a2"] []).1.removedViews :=
  (dispatch_view_lifecycle vlC s0 demoRoute demoRoute ["a1"] ["a2"] [] []
    ⟨JSKey.strk "a1", []⟩ ⟨JSKey.strk "a2", []⟩ 7
    (by decide) (by decide) (by decide) (by decide)).2
